import Mathlib

set_option maxRecDepth 100000

/-
Verification development for the bytecode compiler and stack virtual machine
of the monkey-interpreter repository.

The definitions below are a shallow embedding of the Rust sources:
  - binary helpers        from crates/compiler/src/helpers.rs (binary_helpers)
  - make / unmake         from crates/compiler/src/compiler.rs
  - OpCode, Arg, Object   from crates/compiler/src/types.rs
  - SymbolTable           from src/compiler/symbol_table.rs
  - Compiler              from crates/compiler/src/compiler.rs
  - VM                    from src/vm.rs

Machine integers are modelled as Nat or Int; u8 and u16 casts appear as
explicit mod 256 and mod 65536 operations.  Rust Result values appear as
Except; a Rust panic (an abort, not a typed error value) is modelled by a
dedicated error constructor, VmErr.panicked, distinct from the typed
runtime error constructor VmErr.rt.

The repository splits its modules between an older crates tree and the live
src tree; the src tree is missing its compiler/types.rs file (only callers
are available), so the opcode variants it adds beyond the crates tree
(LT, Null, JP, JPTrue, JPFalse, SetGlobal, GetGlobal) and Object.is_truthy
are modelled from the spec where noted.
-/

/-- Helper from binary_helpers: upper byte of a 16 bit value.  The source
computes (num shifted right by 8) cast to u8; the cast is the mod 256. -/
def get_upper_byte (num : Nat) : Nat := (num >>> 8) % 256

/-- Helper from binary_helpers: lower byte of a 16 bit value, num AND 0x00ff. -/
def get_lower_byte (num : Nat) : Nat := num &&& 0x00ff

/-- Helper from binary_helpers: split a u16 into (upper, lower) bytes. -/
def split_u16 (num : Nat) : Nat × Nat := (get_upper_byte num, get_lower_byte num)

/-- Helper from binary_helpers: combine two bytes into a u16.  The source
computes (h widened to u16, shifted left by 8) OR (l widened to u16); for
the u8 inputs h and l the shift makes the low 8 bits zero, so the OR is
exactly this multiply and add. -/
def combine_bytes (h l : Nat) : Nat := h * 256 + l

/-- CompileError from types.rs is a struct holding one message string. -/
abbrev CompileError := String

/-- The byte buffer type, Bytes = Vec of u8 in types.rs. -/
abbrev Bytes := List Nat

/-- The opcode enumeration.  The byte values 0 to 12 (Constant through
Exclam) are the discriminants written in crates/compiler/src/types.rs.
The remaining variants are used by the compiler and the VM in the src
tree whose types module is not among the available sources; they are
included per the closed enumeration of spec section 3. -/
inductive OpCode
  | Constant
  | Pop
  | Add
  | Sub
  | Mul
  | Div
  | True
  | False
  | Eq
  | NEq
  | GT
  | Minus
  | Exclam
  | LT
  | Null
  | JP
  | JPTrue
  | JPFalse
  | SetGlobal
  | GetGlobal
deriving DecidableEq

/-- The discriminant of an opcode (the Rust expression opcode as u8).
Values 0 to 12 are from types.rs.  Modelled from the spec: the byte values
13 to 19 of the variants added in the missing src compiler types module are
not in the available sources; any injective assignment is consistent with
the spec, which only fixes the closed enumeration, and no claim depends on
the particular values. -/
def OpCode.to_byte : OpCode → Nat
  | .Constant => 0
  | .Pop => 1
  | .Add => 2
  | .Sub => 3
  | .Mul => 4
  | .Div => 5
  | .True => 6
  | .False => 7
  | .Eq => 8
  | .NEq => 9
  | .GT => 10
  | .Minus => 11
  | .Exclam => 12
  | .LT => 13
  | .Null => 14
  | .JP => 15
  | .JPTrue => 16
  | .JPFalse => 17
  | .SetGlobal => 18
  | .GetGlobal => 19

/-- OpCode::from_byte: the source is a chain of guards comparing the input
byte with each discriminant, equivalent to this match on the byte values;
unknown bytes give a CompileError. -/
def OpCode.from_byte (opcode : Nat) : Except CompileError OpCode :=
  match opcode with
  | 0 => .ok .Constant
  | 1 => .ok .Pop
  | 2 => .ok .Add
  | 3 => .ok .Sub
  | 4 => .ok .Mul
  | 5 => .ok .Div
  | 6 => .ok .True
  | 7 => .ok .False
  | 8 => .ok .Eq
  | 9 => .ok .NEq
  | 10 => .ok .GT
  | 11 => .ok .Minus
  | 12 => .ok .Exclam
  | 13 => .ok .LT
  | 14 => .ok .Null
  | 15 => .ok .JP
  | 16 => .ok .JPTrue
  | 17 => .ok .JPFalse
  | 18 => .ok .SetGlobal
  | 19 => .ok .GetGlobal
  | _ => .error "Unknown opcode"

/-- OpCode::get_arg_widths: declared operand widths per opcode.  The widths
of Constant through Exclam are from types.rs.  Modelled from the spec:
the widths of the variants of the missing src compiler types module follow
spec section 3 (JP, JPTrue, JPFalse, SetGlobal, GetGlobal carry one 2 byte
operand; LT and Null carry none). -/
def OpCode.get_arg_widths : OpCode → List Nat
  | .Constant => [2]
  | .JP => [2]
  | .JPTrue => [2]
  | .JPFalse => [2]
  | .SetGlobal => [2]
  | .GetGlobal => [2]
  | _ => []

/-- Instruction operands: Arg from types.rs.  U8 holds a u8, U16 a u16;
the payloads are modelled as Nat, with the width bounds (below 256 and
below 65536) carried as hypotheses where they matter. -/
inductive Arg
  | U8 : Nat → Arg
  | U16 : Nat → Arg
deriving DecidableEq

/-- Arg::read_u8: read one byte at the offset, error if out of bounds. -/
def Arg.read_u8 (bytes : Bytes) (offset : Nat) : Except CompileError Arg :=
  if bytes.length ≤ offset then .error "read_u8: offset larger than bytes size!"
  else .ok (Arg.U8 (bytes.getD offset 0))

/-- Arg::read_u16: read a big endian u16 at the offset, error if the two
bytes are not in bounds. -/
def Arg.read_u16 (bytes : Bytes) (offset : Nat) : Except CompileError Arg :=
  if bytes.length ≤ offset + 1 then .error "read_u16: offset larger than bytes size"
  else .ok (Arg.U16 (combine_bytes (bytes.getD offset 0) (bytes.getD (offset + 1) 0)))

/-- The operand reading loop of unmake: for each declared width read one
operand at offset + bytes_read and advance bytes_read by the width;
bytes_read starts at 1 (the opcode byte). -/
def unmake_args (widths : List Nat) (bytes : Bytes) (offset bytes_read : Nat) :
    Except CompileError (List Arg × Nat) :=
  match widths with
  | [] => .ok ([], bytes_read)
  | width :: rest =>
    match width with
    | 1 => do
        let a ← Arg.read_u8 bytes (offset + bytes_read)
        let (args, br) ← unmake_args rest bytes offset (bytes_read + 1)
        pure (a :: args, br)
    | 2 => do
        let a ← Arg.read_u16 bytes (offset + bytes_read)
        let (args, br) ← unmake_args rest bytes offset (bytes_read + 2)
        pure (a :: args, br)
    | _ => .error "Invalid arg width"

/-- unmake (the decoder): bounds check the offset, decode the opcode byte,
check the declared total instruction length fits, then read the operands;
returns (opcode, operands, bytes consumed). -/
def unmake (bytes : Bytes) (offset : Nat) : Except CompileError (OpCode × List Arg × Nat) :=
  if bytes.length ≤ offset then .error "unmake: offset larger than bytes size!"
  else do
    let opcode ← OpCode.from_byte (bytes.getD offset 0)
    let arg_widths := opcode.get_arg_widths
    let total_len := arg_widths.sum + 1
    if total_len + offset - 1 ≥ bytes.length then
      .error "unmake: args length greater than bytes size!"
    else do
      let (args, bytes_read) ← unmake_args arg_widths bytes offset 1
      pure (opcode, args, bytes_read)

/-- The operand encoding loop of make over the zipped (width, arg) pairs:
a 1 byte width takes a U8 payload, a 2 byte width a U16 payload split big
endian; any other pairing is an encoding error. -/
def make_args (pairs : List (Nat × Arg)) : Except CompileError (List Nat) :=
  match pairs with
  | [] => .ok []
  | (1, Arg.U8 val) :: rest => do
      let bs ← make_args rest
      pure (val :: bs)
  | (2, Arg.U16 val) :: rest => do
      let bs ← make_args rest
      let (h, l) := split_u16 val
      pure (h :: l :: bs)
  | _ => .error "Cannot parse arg for opcode"

/-- make (the encoder): check the operand count matches the declared widths,
emit the opcode byte followed by the operand bytes, and check the produced
length equals 1 plus the sum of the widths. -/
def make (opcode : OpCode) (args : List Arg) : Except CompileError (List Nat) :=
  let arg_widths := opcode.get_arg_widths
  if args.length ≠ arg_widths.length then .error "Cannot compile opcode: wrong arg count"
  else do
    let arg_bytes ← make_args (arg_widths.zip args)
    let bytes := opcode.to_byte :: arg_bytes
    let expected_len := arg_widths.sum + 1
    if expected_len ≠ bytes.length then .error "Invalid bytecode"
    else pure bytes

/-- The runtime value type Object from types.rs.  isize is modelled as Int.
The BuiltIn variant holds a native function pointer in the source; it is
modelled as an opaque identifier since no claim applies a builtin. -/
inductive Object
  | Integer : Int → Object
  | Boolean : Bool → Object
  | String : String → Object
  | Array : List Object → Object
  | KVPair : Object → Object → Object
  | Return : Object → Object
  | Null
  | BuiltIn : Nat → Object

/-- Declaration index of an Object variant, in source declaration order;
this is the discriminant the derived PartialOrd compares across variants. -/
def Object.rank : Object → Nat
  | .Integer _ => 0
  | .Boolean _ => 1
  | .String _ => 2
  | .Array _ => 3
  | .KVPair _ _ => 4
  | .Return _ => 5
  | .Null => 6
  | .BuiltIn _ => 7

mutual
/-- The derived PartialEq of Object: structural equality, variant wise;
for BuiltIn the source compares function pointers, modelled as comparing
the opaque identifiers. -/
def Object.obj_eq : Object → Object → Bool
  | .Integer a, .Integer b => a == b
  | .Boolean a, .Boolean b => a == b
  | .String a, .String b => a == b
  | .Array a, .Array b => Object.obj_eq_list a b
  | .KVPair a b, .KVPair c d => Object.obj_eq a c && Object.obj_eq b d
  | .Return a, .Return b => Object.obj_eq a b
  | .Null, .Null => true
  | .BuiltIn a, .BuiltIn b => a == b
  | _, _ => false

/-- Elementwise equality of Vec of Object under the derived PartialEq. -/
def Object.obj_eq_list : List Object → List Object → Bool
  | [], [] => true
  | x :: xs, y :: ys => Object.obj_eq x y && Object.obj_eq_list xs ys
  | _, _ => false
end

mutual
/-- The derived PartialOrd of Object: two values of the same variant are
compared field by field (lexicographically); values of different variants
compare by variant declaration order (the discriminant), as the derive
produces. -/
def Object.partial_cmp : Object → Object → Option Ordering
  | .Integer a, .Integer b => some (compare a b)
  | .Boolean a, .Boolean b => some (compare a b)
  | .String a, .String b => some (compare a b)
  | .Array a, .Array b => Object.partial_cmp_list a b
  | .KVPair a b, .KVPair c d =>
      match Object.partial_cmp a c with
      | some .eq => Object.partial_cmp b d
      | r => r
  | .Return a, .Return b => Object.partial_cmp a b
  | .Null, .Null => some .eq
  | .BuiltIn a, .BuiltIn b => some (compare a b)
  | x, y => some (compare x.rank y.rank)

/-- Lexicographic comparison of Vec of Object under the derived PartialOrd;
a first incomparable element pair makes the whole comparison incomparable. -/
def Object.partial_cmp_list : List Object → List Object → Option Ordering
  | [], [] => some .eq
  | [], _ :: _ => some .lt
  | _ :: _, [] => some .gt
  | x :: xs, y :: ys =>
      match Object.partial_cmp x y with
      | some .eq => Object.partial_cmp_list xs ys
      | r => r
end

/-- The Rust greater-than on Object: partial_cmp gives Some Greater. -/
def Object.gt_obj (x y : Object) : Bool := Object.partial_cmp x y == some Ordering.gt

/-- The Rust less-than on Object: partial_cmp gives Some Less. -/
def Object.lt_obj (x y : Object) : Bool := Object.partial_cmp x y == some Ordering.lt

/-- A VM failure: rt is a typed RuntimeError value (types.rs RuntimeError);
panicked marks a Rust panic, i.e. an abort that is not a typed error value
(an out of bounds Vec index, or an integer division by zero). -/
inductive VmErr
  | rt : String → VmErr
  | panicked : String → VmErr
deriving DecidableEq

/-- True for the typed runtime error constructor. -/
def VmErr.is_rt : VmErr → Bool
  | .rt _ => true
  | .panicked _ => false

/-- The Add impl for Object: defined only for two Integers. -/
def Object.add_obj : Object → Object → Except VmErr Object
  | .Integer x, .Integer y => .ok (.Integer (x + y))
  | _, _ => .error (.rt "Invalid addition")

/-- The Sub impl for Object: defined only for two Integers. -/
def Object.sub_obj : Object → Object → Except VmErr Object
  | .Integer x, .Integer y => .ok (.Integer (x - y))
  | _, _ => .error (.rt "Invalid subtraction")

/-- The Mul impl for Object: defined only for two Integers. -/
def Object.mul_obj : Object → Object → Except VmErr Object
  | .Integer x, .Integer y => .ok (.Integer (x * y))
  | _, _ => .error (.rt "Invalid multiplication")

/-- The Div impl for Object: defined only for two Integers.  The source
divides with the Rust isize division, which truncates toward zero and
panics (aborts) on a zero divisor; Int.tdiv is the truncating division. -/
def Object.div_obj : Object → Object → Except VmErr Object
  | .Integer x, .Integer y =>
      if y = 0 then .error (.panicked "attempt to divide by zero")
      else .ok (.Integer (Int.tdiv x y))
  | _, _ => .error (.rt "Invalid division")

/-- Modelled from the spec: Object::is_truthy lives in the missing src
compiler types module; only its call sites (the JPTrue and JPFalse arms of
VM::run) are in the available sources.  Spec section 4.4 prescribes jump on
truthy and falsy conditions, and its section 8 tests fix Boolean conditions
to behave as themselves; nonzero Integers are truthy as in the tree
walking interpreter of the same repository.  Every claim exercises only
Boolean conditions, so only the Boolean lines are load bearing. -/
def Object.is_truthy : Object → Bool
  | .Boolean b => b
  | .Integer v => v != 0
  | _ => false

mutual
/-- The Expression nodes of the syntax tree (parser/ast.rs).  Every node
also carries a Token in the source; the compiler never inspects those
metadata fields (its patterns discard them), so they are omitted here. -/
inductive Expression
  | Identifier : String → Expression
  | Integer : Int → Expression
  | Boolean : Bool → Expression
  | String : String → Expression
  | Array : List Expression → Expression
  | Prefix : String → Expression → Expression
  | Infix : Expression → String → Expression → Expression
  | If : Expression → Statement → Option Statement → Expression
  | Function : List Expression → Statement → Expression
  | Call : Expression → List Expression → Expression

/-- The Statement nodes of the syntax tree (parser/ast.rs), token metadata
omitted as above.  Let holds (name, value) where name is an Expression. -/
inductive Statement
  | ExpressionStatement : Expression → Statement
  | Let : Expression → Expression → Statement
  | Return : Expression → Statement
  | Block : List Statement → Statement
end

/-- A parsed program: its list of statements (parser.rs Program). -/
structure Program where
  statements : List Statement

/-- A symbol table entry (symbol_table.rs Symbol); scope is the one scope
kind written by define, the string Global. -/
structure Symbol' where
  name : String
  scope : String
  idx : Nat

/-- The symbol table: a name keyed map of Symbols (a HashMap in the source,
modelled as a lookup function that insert overwrites pointwise) and the
u16 definition counter num_defs. -/
structure SymbolTable where
  store : String → Option Symbol'
  num_defs : Nat

/-- SymbolTable::new: empty map, counter 0. -/
def SymbolTable.new : SymbolTable :=
  { store := fun _ => none, num_defs := 0 }

/-- SymbolTable::define: inserts (overwriting any previous entry for the
name) a Symbol carrying the current counter value as its slot, increments
the counter, and returns the slot.  The counter is a u16 Cell in the
source; the increment is therefore modelled modulo 65536. -/
def SymbolTable.define (st : SymbolTable) (name : String) : Nat × SymbolTable :=
  let num_defs := st.num_defs
  (num_defs,
    { store := fun n =>
        if n = name then some { name := name, scope := "Global", idx := num_defs }
        else st.store n,
      num_defs := (num_defs + 1) % 65536 })

/-- SymbolTable::resolve: the slot of the stored entry for the name. -/
def SymbolTable.resolve (st : SymbolTable) (name : String) : Option Nat :=
  (st.store name).map Symbol'.idx

/-- The compiler output handed to the VM (types.rs ByteCode). -/
structure ByteCode where
  bytes : Bytes
  constants : List Object

/-- The compiler state: byte buffer, constant pool, symbol table. -/
structure Compiler where
  bytes : Bytes
  constants : List Object
  symbol_table : SymbolTable

/-- Compiler::new: empty buffer, empty pool, fresh symbol table. -/
def Compiler.new : Compiler :=
  { bytes := [], constants := [], symbol_table := SymbolTable.new }

/-- Compiler::add_constant: push the object and return its index (the
length before the push). -/
def Compiler.add_constant (c : Compiler) (obj : Object) : Nat × Compiler :=
  (c.constants.length, { c with constants := c.constants ++ [obj] })

/-- Compiler::emit: encode with make, append to the buffer, return the
byte offset at which the instruction starts. -/
def Compiler.emit (c : Compiler) (opcode : OpCode) (args : List Arg) :
    Except CompileError (Nat × Compiler) := do
  let bytes ← make opcode args
  let start := c.bytes.length
  pure (start, { c with bytes := c.bytes ++ bytes })

/-- Compiler::remove_last_pop: if the LAST BYTE of the buffer equals the
Pop opcode byte, remove that byte; the source inspects bytes.last(), not
the last emitted instruction. -/
def remove_last_pop (bytes : Bytes) : Bytes :=
  match bytes.getLast? with
  | some val => if val = OpCode.to_byte OpCode.Pop then bytes.dropLast else bytes
  | none => bytes

/-- Compiler::overwrite_instruction: write new_instruction over the bytes
starting at addr_idx, in place, one byte at a time. -/
def overwrite_instruction (bytes : Bytes) (addr_idx : Nat) : List Nat → Bytes
  | [] => bytes
  | b :: rest => overwrite_instruction (bytes.set addr_idx b) (addr_idx + 1) rest

mutual
/-- Compiler::compile_statement. -/
def Compiler.compile_statement (c : Compiler) (statement : Statement) :
    Except CompileError Compiler :=
  match statement with
  | .ExpressionStatement expression => do
      let c ← Compiler.compile_expression c expression
      let (_, c) ← Compiler.emit c OpCode.Pop []
      pure c
  | .Block statements => Compiler.compile_statement_list c statements
  | .Let name value =>
      match name with
      | .Identifier name => do
          let c ← Compiler.compile_expression c value
          let (idx, st) := SymbolTable.define c.symbol_table name
          let c := { c with symbol_table := st }
          let (_, c) ← Compiler.emit c OpCode.SetGlobal [Arg.U16 idx]
          pure c
      | _ => .error "Invalie Let statement, expected identifier"
  | _ => .error "Compilation not implemented for statement"

/-- The statement loop of the Block arm of compile_statement. -/
def Compiler.compile_statement_list (c : Compiler) (statements : List Statement) :
    Except CompileError Compiler :=
  match statements with
  | [] => pure c
  | statement :: rest => do
      let c ← Compiler.compile_statement c statement
      Compiler.compile_statement_list c rest

/-- Compiler::compile_expression. -/
def Compiler.compile_expression (c : Compiler) (expression : Expression) :
    Except CompileError Compiler :=
  match expression with
  | .Infix left operator right => do
      let c ← Compiler.compile_expression c left
      let c ← Compiler.compile_expression c right
      match operator with
      | "+" => do let (_, c) ← Compiler.emit c OpCode.Add []; pure c
      | "-" => do let (_, c) ← Compiler.emit c OpCode.Sub []; pure c
      | "*" => do let (_, c) ← Compiler.emit c OpCode.Mul []; pure c
      | "/" => do let (_, c) ← Compiler.emit c OpCode.Div []; pure c
      | "==" => do let (_, c) ← Compiler.emit c OpCode.Eq []; pure c
      | "!=" => do let (_, c) ← Compiler.emit c OpCode.NEq []; pure c
      | ">" => do let (_, c) ← Compiler.emit c OpCode.GT []; pure c
      | "<" => do let (_, c) ← Compiler.emit c OpCode.LT []; pure c
      | _ => .error "Cannot compile infix operator"
  | .Integer value =>
      let (idx, c) := Compiler.add_constant c (Object.Integer value)
      do
        let (_, c) ← Compiler.emit c OpCode.Constant [Arg.U16 (idx % 65536)]
        pure c
  | .Boolean value =>
      let opcode := if value then OpCode.True else OpCode.False
      do
        let (_, c) ← Compiler.emit c opcode []
        pure c
  | .Prefix operator right => do
      let c ← Compiler.compile_expression c right
      match operator with
      | "-" => do let (_, c) ← Compiler.emit c OpCode.Minus []; pure c
      | "!" => do let (_, c) ← Compiler.emit c OpCode.Exclam []; pure c
      | _ => .error "Cannot compile prefix operator"
  | .If condition consequence alternative => do
      let c ← Compiler.compile_expression c condition
      let (jp_false_addr_idx, c) ← Compiler.emit c OpCode.JPFalse [Arg.U16 0]
      let c ← Compiler.compile_statement c consequence
      let c := { c with bytes := remove_last_pop c.bytes }
      let (jp_addr_idx, c) ← Compiler.emit c OpCode.JP [Arg.U16 0]
      let jp_false_addr := c.bytes.length
      let c ←
        match alternative with
        | some alternative => Compiler.compile_statement c alternative
        | none => do
            let (_, c) ← Compiler.emit c OpCode.Null []
            pure c
      let c := { c with bytes := remove_last_pop c.bytes }
      let jp_addr := c.bytes.length
      let patch_jp ← make OpCode.JP [Arg.U16 (jp_addr % 65536)]
      let c := { c with bytes := overwrite_instruction c.bytes jp_addr_idx patch_jp }
      let patch_jp_false ← make OpCode.JPFalse [Arg.U16 (jp_false_addr % 65536)]
      let c := { c with bytes := overwrite_instruction c.bytes jp_false_addr_idx patch_jp_false }
      pure c
  | .Identifier value =>
      match SymbolTable.resolve c.symbol_table value with
      | some idx => do
          let (_, c) ← Compiler.emit c OpCode.GetGlobal [Arg.U16 idx]
          pure c
      | none => .error "Cannot resolve symbol"
  | _ => .error "Compilation not implemented for expression"
end

/-- Compiler::get_byte_code: the assembled ByteCode. -/
def Compiler.get_byte_code (c : Compiler) : ByteCode :=
  { bytes := c.bytes, constants := c.constants }

/-- Compiler::compile_program: compile each statement, then hand over the
assembled ByteCode. -/
def Compiler.compile_program (c : Compiler) (program : Program) :
    Except CompileError ByteCode := do
  let c ← Compiler.compile_statement_list c program.statements
  pure (Compiler.get_byte_code c)

/-- STACK_SIZE from vm.rs: capacity of the stack and the globals array. -/
def STACK_SIZE : Nat := 10

/-- The VM state (vm.rs VM): the ByteCode and, behind Cells and RefCells in
the source, the stack, the stack pointer, the instruction pointer and the
globals array. -/
structure VM where
  bytecode : ByteCode
  stack : List Object
  sp : Nat
  ip : Nat
  globals : List Object

/-- VM::new: stack and globals pre filled with Null, cursors at 0. -/
def VM.new (bytecode : ByteCode) : VM :=
  { bytecode := bytecode,
    stack := List.replicate STACK_SIZE Object.Null,
    sp := 0,
    ip := 0,
    globals := List.replicate STACK_SIZE Object.Null }

/-- VM::stack_top: empty stack error at stack pointer 0, else the element
below the stack pointer (a Vec index, hence a panic were it out of range). -/
def VM.stack_top (vm : VM) : Except VmErr Object :=
  if vm.sp = 0 then .error (.rt "stack_top: Cannot read empty stack!")
  else if vm.sp - 1 < vm.stack.length then .ok (vm.stack.getD (vm.sp - 1) Object.Null)
  else .error (.panicked "index out of bounds")

/-- VM::push_stack: stack overflow error when the stack pointer equals
STACK_SIZE, else store at the stack pointer and increment it (the store is
a Vec index, hence a panic were it out of range). -/
def VM.push_stack (vm : VM) (obj : Object) : Except VmErr VM :=
  if vm.sp = STACK_SIZE then .error (.rt "push_stack: stack overflow")
  else if vm.sp < vm.stack.length then
    .ok { vm with stack := vm.stack.set vm.sp obj, sp := vm.sp + 1 }
  else .error (.panicked "index out of bounds")

/-- VM::pop_stack: read the top, decrement the stack pointer, overwrite the
vacated slot with Null, and return the read value. -/
def VM.pop_stack (vm : VM) : Except VmErr (Object × VM) := do
  let val ← VM.stack_top vm
  let sp := vm.sp - 1
  pure (val, { vm with sp := sp, stack := vm.stack.set sp Object.Null })

/-- map_compile_err from vm.rs: wrap a decode CompileError as a runtime
error. -/
def map_compile_err (err : CompileError) : VmErr := .rt err

/-- The u16 operand read of VM::run (Arg::read_u16 at the offset, the
CompileError mapped to a runtime error, the U16 payload extracted). -/
def vm_read_u16 (bytes : Bytes) (offset : Nat) : Except VmErr Nat :=
  match Arg.read_u16 bytes offset with
  | .ok (Arg.U16 v) => .ok v
  | .ok (Arg.U8 v) => .ok v
  | .error e => .error (map_compile_err e)

/-- One iteration of the run loop either continues with a new state, halts
(instruction pointer past the end of the stream), or fails. -/
inductive Step
  | cont : VM → Step
  | halt : VM → Step
  | fail : VmErr → Step

/-- View an Except-valued loop body as a Step. -/
def to_step : Except VmErr VM → Step
  | .ok vm => .cont vm
  | .error e => .fail e

/-- VM::jump: read the u16 target at ip + 1 and set ip to it. -/
def VM.jump (vm : VM) : Except VmErr VM := do
  let addr ← vm_read_u16 vm.bytecode.bytes (vm.ip + 1)
  pure { vm with ip := addr }

/-- VM::perform_infix_operation: pop the right operand, pop the left, apply
the operator, push the result, advance ip by 1. -/
def VM.perform_infix_operation (vm : VM)
    (operator : Object → Object → Except VmErr Object) : Except VmErr VM := do
  let (y, vm) ← VM.pop_stack vm
  let (x, vm) ← VM.pop_stack vm
  let res ← operator x y
  let vm ← VM.push_stack vm res
  pure { vm with ip := vm.ip + 1 }

/-- One iteration of the fetch-decode-execute loop of VM::run (vm.rs),
arm by arm.  The globals writes and reads are unchecked Vec indexing in
the source, so an out of range slot is a panic, not a typed error. -/
def VM.step (vm : VM) : Step :=
  if vm.ip ≥ vm.bytecode.bytes.length then .halt vm
  else
    match OpCode.from_byte (vm.bytecode.bytes.getD vm.ip 0) with
    | .error e => .fail (map_compile_err e)
    | .ok opcode =>
      match opcode with
      | .Constant => to_step (do
          let idx ← vm_read_u16 vm.bytecode.bytes (vm.ip + 1)
          if idx ≥ vm.bytecode.constants.length then
            .error (.rt "Attempted to access object at out of range index")
          else do
            let vm ← VM.push_stack vm (vm.bytecode.constants.getD idx Object.Null)
            pure { vm with ip := vm.ip + 3 })
      | .Add => to_step (VM.perform_infix_operation vm Object.add_obj)
      | .Sub => to_step (VM.perform_infix_operation vm Object.sub_obj)
      | .Mul => to_step (VM.perform_infix_operation vm Object.mul_obj)
      | .Div => to_step (VM.perform_infix_operation vm Object.div_obj)
      | .Eq => to_step (VM.perform_infix_operation vm
          (fun x y => .ok (Object.Boolean (Object.obj_eq x y))))
      | .NEq => to_step (VM.perform_infix_operation vm
          (fun x y => .ok (Object.Boolean (! Object.obj_eq x y))))
      | .GT => to_step (VM.perform_infix_operation vm
          (fun x y => .ok (Object.Boolean (Object.gt_obj x y))))
      | .LT => to_step (VM.perform_infix_operation vm
          (fun x y => .ok (Object.Boolean (Object.lt_obj x y))))
      | .Minus => to_step (do
          let (val, vm) ← VM.pop_stack vm
          match val with
          | Object.Integer v => do
              let vm ← VM.push_stack vm (Object.Integer (-v))
              pure { vm with ip := vm.ip + 1 }
          | _ => .error (.rt "Minus can only be applied to Integers"))
      | .Exclam => to_step (do
          let (val, vm) ← VM.pop_stack vm
          match val with
          | Object.Boolean b => do
              let vm ← VM.push_stack vm (Object.Boolean (!b))
              pure { vm with ip := vm.ip + 1 }
          | Object.Integer v => do
              let vm ← VM.push_stack vm (Object.Boolean (v == 0))
              pure { vm with ip := vm.ip + 1 }
          | Object.Null => do
              let vm ← VM.push_stack vm (Object.Boolean true)
              pure { vm with ip := vm.ip + 1 }
          | _ => .error (.rt "Exclam can only be applied to Booleans and Integers"))
      | .Pop => to_step (do
          let (_, vm) ← VM.pop_stack vm
          pure { vm with ip := vm.ip + 1 })
      | .True => to_step (do
          let vm ← VM.push_stack vm (Object.Boolean true)
          pure { vm with ip := vm.ip + 1 })
      | .False => to_step (do
          let vm ← VM.push_stack vm (Object.Boolean false)
          pure { vm with ip := vm.ip + 1 })
      | .Null => to_step (do
          let vm ← VM.push_stack vm Object.Null
          pure { vm with ip := vm.ip + 1 })
      | .JP => to_step (VM.jump vm)
      | .JPTrue => to_step (do
          let (condition, vm) ← VM.pop_stack vm
          if Object.is_truthy condition then VM.jump vm
          else pure { vm with ip := vm.ip + 3 })
      | .JPFalse => to_step (do
          let (condition, vm) ← VM.pop_stack vm
          if ! Object.is_truthy condition then VM.jump vm
          else pure { vm with ip := vm.ip + 3 })
      | .SetGlobal => to_step (do
          let idx ← vm_read_u16 vm.bytecode.bytes (vm.ip + 1)
          let (val, vm) ← VM.pop_stack vm
          if idx < vm.globals.length then
            pure { vm with globals := vm.globals.set idx val, ip := vm.ip + 3 }
          else .error (.panicked "index out of bounds"))
      | .GetGlobal => to_step (do
          let idx ← vm_read_u16 vm.bytecode.bytes (vm.ip + 1)
          if idx < vm.globals.length then do
            let vm ← VM.push_stack vm (vm.globals.getD idx Object.Null)
            pure { vm with ip := vm.ip + 3 }
          else .error (.panicked "index out of bounds"))

/-- Result of a whole run: the final state on normal halt, a typed runtime
error, a panic, or fuel exhaustion (the embedding bounds the loop; every
program proved about here halts well within the given fuel). -/
inductive RunResult
  | ok : VM → RunResult
  | rt_err : String → RunResult
  | panicked : String → RunResult
  | out_of_fuel : RunResult

/-- VM::run: iterate step until halt or failure, with fuel. -/
def VM.run : Nat → VM → RunResult
  | 0, _ => .out_of_fuel
  | fuel + 1, vm =>
    match VM.step vm with
    | .cont vm => VM.run fuel vm
    | .halt vm => .ok vm
    | .fail (.rt e) => .rt_err e
    | .fail (.panicked e) => .panicked e

/-- Execute exactly k continuing steps; an early halt or failure is
reported as an error marker. -/
def VM.step_n : Nat → VM → Except String VM
  | 0, vm => .ok vm
  | k + 1, vm =>
    match VM.step vm with
    | .cont vm => VM.step_n k vm
    | _ => .error "stopped early"

/-- True on the normal halt outcome. -/
def RunResult.is_ok : RunResult → Bool
  | .ok _ => true
  | _ => false

/-- True exactly when the run stopped with a typed RuntimeError value. -/
def RunResult.is_rt_err : RunResult → Bool
  | .rt_err _ => true
  | _ => false

/-- True exactly when the run aborted with a panic. -/
def RunResult.is_panicked : RunResult → Bool
  | .panicked _ => true
  | _ => false

/-- The stack pointer of the final state of a normally halted run. -/
def RunResult.final_sp : RunResult → Option Nat
  | .ok vm => some vm.sp
  | _ => none

/-- The value VM::stack_top reads from the final state of a normally halted
run; none when the run did not halt normally or the final stack is empty. -/
def RunResult.top_value : RunResult → Option Object
  | .ok vm =>
      match VM.stack_top vm with
      | .ok v => some v
      | .error _ => none
  | _ => none

/-- Run a ByteCode in a fresh VM; 100 fuel covers every program considered
here with a wide margin. -/
def run_result (bc : ByteCode) : RunResult := VM.run 100 (VM.new bc)

/-- The parsed program if (false) with consequence 1 and no else branch. -/
def prog_if1 : Program :=
  { statements := [Statement.ExpressionStatement
      (Expression.If (Expression.Boolean false)
        (Statement.Block [Statement.ExpressionStatement (Expression.Integer 1)])
        none)] }

/-- The parsed program if (true) with consequence 1 and alternative 2. -/
def prog_if2 : Program :=
  { statements := [Statement.ExpressionStatement
      (Expression.If (Expression.Boolean true)
        (Statement.Block [Statement.ExpressionStatement (Expression.Integer 1)])
        (some (Statement.Block [Statement.ExpressionStatement (Expression.Integer 2)])))] }

/-- The parsed program if (false) with consequence 1 and alternative 2. -/
def prog_if3 : Program :=
  { statements := [Statement.ExpressionStatement
      (Expression.If (Expression.Boolean false)
        (Statement.Block [Statement.ExpressionStatement (Expression.Integer 1)])
        (some (Statement.Block [Statement.ExpressionStatement (Expression.Integer 2)])))] }

/-- The parsed program 10 + 2 + 3 + 200 (plus is left associative). -/
def prog_arith : Program :=
  { statements := [Statement.ExpressionStatement
      (Expression.Infix
        (Expression.Infix
          (Expression.Infix (Expression.Integer 10) "+" (Expression.Integer 2))
          "+" (Expression.Integer 3))
        "+" (Expression.Integer 200))] }

/-- The parsed program: let a = 1; if (true) then a block holding only
let b = 2, with no else branch.  The consequence ends in a SetGlobal
instruction with slot 1, not in a Pop. -/
def prog_set_global_conseq : Program :=
  { statements :=
      [Statement.Let (Expression.Identifier "a") (Expression.Integer 1),
       Statement.ExpressionStatement
         (Expression.If (Expression.Boolean true)
           (Statement.Block [Statement.Let (Expression.Identifier "b") (Expression.Integer 2)])
           none)] }

/-- The bytecode the compiler produces for prog_if1. -/
def bc_if1 : ByteCode :=
  { bytes := [7, 17, 0, 10, 0, 0, 0, 15, 0, 11, 14, 1],
    constants := [Object.Integer 1] }

/-- The bytecode the compiler produces for prog_if2. -/
def bc_if2 : ByteCode :=
  { bytes := [6, 17, 0, 10, 0, 0, 0, 15, 0, 13, 0, 0, 1, 1],
    constants := [Object.Integer 1, Object.Integer 2] }

/-- The bytecode the compiler produces for prog_if3. -/
def bc_if3 : ByteCode :=
  { bytes := [7, 17, 0, 10, 0, 0, 0, 15, 0, 13, 0, 0, 1, 1],
    constants := [Object.Integer 1, Object.Integer 2] }

/-- The bytecode the compiler produces for prog_arith. -/
def bc_arith : ByteCode :=
  { bytes := [0, 0, 0, 0, 0, 1, 2, 0, 0, 2, 2, 0, 0, 3, 2, 1],
    constants := [Object.Integer 10, Object.Integer 2, Object.Integer 3, Object.Integer 200] }

/-- The bytecode the compiler produces for prog_set_global_conseq: the
SetGlobal instruction of the consequence (slot 1, bytes 18 0 1 emitted at
offsets 10 to 15 after the Constant 1 instruction) has lost its final
operand byte to remove_last_pop, so the stream decodes to garbage from
offset 13 on. -/
def bc_set_global_conseq : ByteCode :=
  { bytes := [0, 0, 0, 18, 0, 0, 6, 17, 0, 18, 0, 0, 1, 18, 0, 15, 0, 19, 14, 1],
    constants := [Object.Integer 1, Object.Integer 2] }

/-- A bytecode that pushes one constant and applies Exclam to it. -/
def excl_bc (v : Object) : ByteCode :=
  { bytes := [0, 0, 0, 12], constants := [v] }

/-- True on the Object variants the Exclam arm of VM::run rejects. -/
def exclam_unsupported : Object → Bool
  | .String _ => true
  | .Array _ => true
  | .KVPair _ _ => true
  | .Return _ => true
  | .BuiltIn _ => true
  | _ => false

/-- A bytecode that pushes x, pushes y, then runs GT. -/
def bc_gt (x y : Object) : ByteCode :=
  { bytes := [0, 0, 0, 0, 0, 1, 10], constants := [x, y] }

/-- A bytecode that pushes x, pushes y, then runs LT. -/
def bc_lt (x y : Object) : ByteCode :=
  { bytes := [0, 0, 0, 0, 0, 1, 13], constants := [x, y] }

/-- Conformance of an operand list to a declared width list: equal lengths,
a U8 payload (a u8, below 256) against each width 1, a U16 payload (a u16,
below 65536) against each width 2.  This is exactly what the Rust types of
make admit. -/
inductive ArgsConform : List Nat → List Arg → Prop
  | nil : ArgsConform [] []
  | u8 {v : Nat} {rest : List Nat} {args : List Arg} :
      v < 256 → ArgsConform rest args → ArgsConform (1 :: rest) (Arg.U8 v :: args)
  | u16 {v : Nat} {rest : List Nat} {args : List Arg} :
      v < 65536 → ArgsConform rest args → ArgsConform (2 :: rest) (Arg.U16 v :: args)

/-- Run a sequence of define calls against a symbol table. -/
def exec_defines (st : SymbolTable) : List String → SymbolTable
  | [] => st
  | name :: rest => exec_defines (SymbolTable.define st name).2 rest

/-- The slots returned by a sequence of define calls. -/
def define_results (st : SymbolTable) : List String → List Nat
  | [] => []
  | name :: rest =>
      let r := SymbolTable.define st name
      r.1 :: define_results r.2 rest

/-- A bytecode that pushes Integer a, pushes Integer 0, then runs Div. -/
def div_bc (a : Int) : ByteCode :=
  { bytes := [0, 0, 0, 0, 0, 1, 5], constants := [Object.Integer a, Object.Integer 0] }

/-- A bytecode that pushes Integer 1 and then runs SetGlobal whose big
endian slot operand bytes are hi and lo. -/
def set_global_bc (hi lo : Nat) : ByteCode :=
  { bytes := [0, 0, 0, 18, hi, lo], constants := [Object.Integer 1] }

/-- A concrete well formed VM state with one Integer on the stack, used to
instantiate the stack discipline theorem. -/
def vm_stack_witness : VM :=
  { bytecode := { bytes := [], constants := [] },
    stack := Object.Integer 7 :: List.replicate 9 Object.Null,
    sp := 1,
    ip := 0,
    globals := List.replicate 10 Object.Null }

theorem except_bind_ok {α β ε : Type} (a : α) (f : α → Except ε β) :
    (Except.ok a >>= f) = f a := rfl

theorem except_bind_error {α β ε : Type} (e : ε) (f : α → Except ε β) :
    ((Except.error e : Except ε α) >>= f) = Except.error e := rfl

theorem land_255_eq_mod (v : Nat) : v &&& 0x00ff = v % 256 := by
  have h := Nat.and_pow_two_sub_one_eq_mod v 8
  norm_num at h
  exact h

theorem combine_split (v : Nat) (hv : v < 65536) :
    combine_bytes (get_upper_byte v) (get_lower_byte v) = v := by
  unfold combine_bytes get_upper_byte get_lower_byte
  rw [land_255_eq_mod, Nat.shiftRight_eq_div_pow]
  have h8 : (2 : Nat) ^ 8 = 256 := by norm_num
  rw [h8]
  omega

theorem from_byte_to_byte (op : OpCode) : OpCode.from_byte op.to_byte = .ok op := by
  cases op <;> rfl

theorem arg_widths_nil_or_two (op : OpCode) :
    op.get_arg_widths = [] ∨ op.get_arg_widths = [2] := by
  cases op <;> simp [OpCode.get_arg_widths]

theorem conform_nil {args : List Arg} (h : ArgsConform [] args) : args = [] := by
  cases h; rfl

theorem conform_two {args : List Arg} (h : ArgsConform [2] args) :
    ∃ v, v < 65536 ∧ args = [Arg.U16 v] := by
  cases h with
  | u16 hv htail =>
    cases htail
    exact ⟨_, hv, rfl⟩

/-- C2: for every opcode and every operand list conforming to the declared
operand widths (matching count, matching width tags, payloads within the
u8 or u16 range guaranteed by the Rust types), make succeeds and unmake of
the produced bytes at offset 0 returns exactly the opcode, the operands
and 1 plus the sum of the widths. -/
theorem c2_make_unmake_roundtrip (op : OpCode) (args : List Arg)
    (h : ArgsConform op.get_arg_widths args) :
    ∃ bs, make op args = .ok bs ∧
      unmake bs 0 = .ok (op, args, 1 + op.get_arg_widths.sum) := by
  have hfb := from_byte_to_byte op
  rcases arg_widths_nil_or_two op with hw | hw
  · rw [hw] at h
    cases conform_nil h
    refine ⟨[op.to_byte], ?_, ?_⟩
    · simp [make, hw, make_args]
      rfl
    · simp [unmake, hfb, hw, unmake_args, except_bind_ok]
  · rw [hw] at h
    obtain ⟨v, hv, rfl⟩ := conform_two h
    refine ⟨[op.to_byte, get_upper_byte v, get_lower_byte v], ?_, ?_⟩
    · simp [make, hw, make_args, split_u16, except_bind_ok]
      rfl
    · simp [unmake, hfb, hw, unmake_args, Arg.read_u16, except_bind_ok,
        combine_split v hv]

/-- C2 witness: the round trip at the Constant opcode with operand 65534,
the concrete instance of the repository test suite. -/
theorem c2_roundtrip_witness :
    ∃ bs, make OpCode.Constant [Arg.U16 65534] = .ok bs ∧
      unmake bs 0 = .ok (OpCode.Constant, [Arg.U16 65534],
        1 + OpCode.Constant.get_arg_widths.sum) :=
  c2_make_unmake_roundtrip OpCode.Constant [Arg.U16 65534]
    (ArgsConform.u16 (by decide) ArgsConform.nil)

/-- C1 counterexample: for the program if (true) then 1 else 2, compiling
and running succeeds, but compile_statement appends a trailing Pop for the
expression statement, so the final stack pointer is 0, every stack slot has
been overwritten with Null, and reading the top of the final stack fails;
the top of the stack is not Integer 1 as claimed. -/
theorem c1_counterexample :
    Compiler.compile_program Compiler.new prog_if2 = .ok bc_if2
  ∧ run_result bc_if2 = RunResult.ok
      { bytecode := bc_if2, stack := List.replicate 10 Object.Null, sp := 0, ip := 14,
        globals := List.replicate 10 Object.Null }
  ∧ (run_result bc_if2).top_value = none
  ∧ (run_result bc_if2).final_sp = some 0 :=
  ⟨rfl, rfl, rfl, rfl⟩

/-- C1 (amended): for the three conditional programs, compiling with
compile_program and running the ByteCode in a fresh VM succeeds; the value
of the conditional on top of the stack just before the final Pop
instruction (the byte the instruction pointer then rests on is the Pop
opcode byte 1) is Null, Integer 1 and Integer 2 respectively, with stack
pointer 1 there; the trailing Pop then discards it, so the run halts with
stack pointer 0. -/
theorem c1_conditionals_amended :
    (Compiler.compile_program Compiler.new prog_if1 = .ok bc_if1
      ∧ (run_result bc_if1).is_ok = true
      ∧ (run_result bc_if1).final_sp = some 0
      ∧ (VM.step_n 3 (VM.new bc_if1)).map
          (fun vm => (VM.stack_top vm, vm.sp, vm.bytecode.bytes.getD vm.ip 0)) =
          .ok (.ok Object.Null, 1, 1))
  ∧ (Compiler.compile_program Compiler.new prog_if2 = .ok bc_if2
      ∧ (run_result bc_if2).is_ok = true
      ∧ (run_result bc_if2).final_sp = some 0
      ∧ (VM.step_n 4 (VM.new bc_if2)).map
          (fun vm => (VM.stack_top vm, vm.sp, vm.bytecode.bytes.getD vm.ip 0)) =
          .ok (.ok (Object.Integer 1), 1, 1))
  ∧ (Compiler.compile_program Compiler.new prog_if3 = .ok bc_if3
      ∧ (run_result bc_if3).is_ok = true
      ∧ (run_result bc_if3).final_sp = some 0
      ∧ (VM.step_n 3 (VM.new bc_if3)).map
          (fun vm => (VM.stack_top vm, vm.sp, vm.bytecode.bytes.getD vm.ip 0)) =
          .ok (.ok (Object.Integer 2), 1, 1)) :=
  ⟨⟨rfl, rfl, rfl, rfl⟩, ⟨rfl, rfl, rfl, rfl⟩, ⟨rfl, rfl, rfl, rfl⟩⟩

/-- C3 counterexample: compiling 10 + 2 + 3 + 200 and running succeeds,
but the final stack pointer is 0, not 1, because the expression statement
compiles with a trailing Pop; the final stack is entirely Null and its top
cannot be read. -/
theorem c3_counterexample :
    Compiler.compile_program Compiler.new prog_arith = .ok bc_arith
  ∧ run_result bc_arith = RunResult.ok
      { bytecode := bc_arith, stack := List.replicate 10 Object.Null, sp := 0, ip := 16,
        globals := List.replicate 10 Object.Null }
  ∧ (run_result bc_arith).final_sp = some 0
  ∧ (run_result bc_arith).top_value = none :=
  ⟨rfl, rfl, rfl, rfl⟩

/-- C3 (amended): compiling 10 + 2 + 3 + 200 and running terminates
without error; just before the final Pop instruction (after 7 executed
instructions, the instruction pointer resting on the Pop opcode byte 1)
the top of the stack is Integer 215 with stack pointer 1; the trailing Pop
then discards the value and the run halts with stack pointer 0. -/
theorem c3_arith_amended :
    Compiler.compile_program Compiler.new prog_arith = .ok bc_arith
  ∧ (run_result bc_arith).is_ok = true
  ∧ (run_result bc_arith).final_sp = some 0
  ∧ (VM.step_n 7 (VM.new bc_arith)).map
      (fun vm => (VM.stack_top vm, vm.sp, vm.bytecode.bytes.getD vm.ip 0)) =
      .ok (.ok (Object.Integer 215), 1, 1) :=
  ⟨rfl, rfl, rfl, rfl⟩

/-- C4: remove_last_pop inspects only the final byte of the buffer.  The
byte list 0 0 1 is the single complete instruction Constant with operand 1
(unmake decodes it back as such), whose last instruction is not a Pop, yet
remove_last_pop removes its final operand byte because that byte equals
the Pop opcode byte.  Compiling the program let a = 1 followed by
if (true) containing only let b = 2 exhibits the bug end to end: the
consequence ends in SetGlobal slot 1 and remove_last_pop strips its final
operand byte, producing the corrupted stream of bc_set_global_conseq,
which then panics when run (a garbage SetGlobal slot 15 is decoded). -/
theorem c4_remove_last_pop_bug :
    remove_last_pop [0, 0, 1] = [0, 0]
  ∧ unmake [0, 0, 1] 0 = .ok (OpCode.Constant, [Arg.U16 1], 3)
  ∧ Compiler.compile_program Compiler.new prog_set_global_conseq = .ok bc_set_global_conseq
  ∧ (run_result bc_set_global_conseq).is_panicked = true :=
  ⟨rfl, rfl, rfl, rfl⟩

/-- C7 counterexample: running Div on Integer 7 and Integer 0 does not
return a typed RuntimeError; the isize division panics, aborting the run. -/
theorem c7_counterexample :
    (run_result (div_bc 7)).is_rt_err = false
  ∧ (run_result (div_bc 7)).is_panicked = true :=
  ⟨rfl, rfl⟩

/-- C7 (amended): for every left operand Integer a, executing Div with
right operand Integer 0 aborts the run with the divide by zero panic of
the underlying isize division instead of returning a typed RuntimeError. -/
theorem c7_div_by_zero_amended (a : Int) :
    run_result (div_bc a) = RunResult.panicked "attempt to divide by zero" :=
  rfl

/-- C7 witness: the divide by zero panic at the concrete dividend 5. -/
theorem c7_div_by_zero_witness :
    run_result (div_bc 5) = RunResult.panicked "attempt to divide by zero" :=
  c7_div_by_zero_amended 5

/-- C9 counterexample: executing Exclam on a popped Null does not fail
with a runtime error as claimed; the run halts normally with
Boolean true on top of the stack. -/
theorem c9_counterexample :
    (run_result (excl_bc Object.Null)).is_rt_err = false
  ∧ (run_result (excl_bc Object.Null)).is_ok = true
  ∧ (run_result (excl_bc Object.Null)).top_value = some (Object.Boolean true) :=
  ⟨rfl, rfl, rfl⟩

/-- C9 (amended): executing Exclam pops one value; a Boolean b leaves
Boolean not b on top, an Integer v leaves Boolean (v equals 0), a Null
leaves Boolean true (rather than failing), and every remaining variant
(String, Array, KVPair, Return, BuiltIn) fails with a typed runtime
error. -/
theorem c9_exclam_amended (v : Object) :
    (∀ b, v = Object.Boolean b →
        (run_result (excl_bc v)).top_value = some (Object.Boolean (!b)))
  ∧ (∀ n, v = Object.Integer n →
        (run_result (excl_bc v)).top_value = some (Object.Boolean (n == 0)))
  ∧ (v = Object.Null →
        (run_result (excl_bc v)).top_value = some (Object.Boolean true)
        ∧ (run_result (excl_bc v)).is_rt_err = false)
  ∧ (exclam_unsupported v = true → (run_result (excl_bc v)).is_rt_err = true) := by
  refine ⟨?_, ?_, ?_, ?_⟩
  · rintro b rfl
    rfl
  · rintro n rfl
    rfl
  · rintro rfl
    exact ⟨rfl, rfl⟩
  · intro h
    cases v <;> first | rfl | simp [exclam_unsupported] at h

/-- C9 witness: the amended Exclam semantics at the concrete popped values
Null (Boolean true results, no error) and Boolean true (negated). -/
theorem c9_exclam_witness :
    ((run_result (excl_bc Object.Null)).top_value = some (Object.Boolean true)
      ∧ (run_result (excl_bc Object.Null)).is_rt_err = false)
  ∧ (run_result (excl_bc (Object.Boolean true))).top_value =
      some (Object.Boolean false) :=
  ⟨(c9_exclam_amended Object.Null).2.2.1 rfl,
   (c9_exclam_amended (Object.Boolean true)).1 true rfl⟩

/-- C10: executing GT or LT on two operands of different Object variants
never produces a runtime error: the run halts normally and pushes the
Boolean given by the derived partial order (gt_obj and lt_obj test
partial_cmp against Some Greater and Some Less), and whenever partial_cmp
is None both comparisons silently give Boolean false. -/
theorem c10_cross_variant_compare (x y : Object) (h : Object.rank x ≠ Object.rank y) :
    (run_result (bc_gt x y)).is_ok = true
  ∧ (run_result (bc_gt x y)).top_value = some (Object.Boolean (Object.gt_obj x y))
  ∧ (run_result (bc_lt x y)).is_ok = true
  ∧ (run_result (bc_lt x y)).top_value = some (Object.Boolean (Object.lt_obj x y))
  ∧ (Object.partial_cmp x y = none →
      Object.gt_obj x y = false ∧ Object.lt_obj x y = false) := by
  refine ⟨rfl, rfl, rfl, rfl, fun hn => ?_⟩
  simp [Object.gt_obj, Object.lt_obj, hn]

/-- C10 witness: comparing Integer 1 against Boolean true (different
variants): no error, and the derived order puts Integer before Boolean,
so GT pushes Boolean false and LT pushes Boolean true. -/
theorem c10_cross_variant_witness :
    (run_result (bc_gt (Object.Integer 1) (Object.Boolean true))).top_value =
      some (Object.Boolean (Object.gt_obj (Object.Integer 1) (Object.Boolean true)))
  ∧ Object.gt_obj (Object.Integer 1) (Object.Boolean true) = false
  ∧ Object.lt_obj (Object.Integer 1) (Object.Boolean true) = true :=
  ⟨(c10_cross_variant_compare (Object.Integer 1) (Object.Boolean true) (by decide)).2.1,
   by rfl, by rfl⟩

/-- C5: stack discipline, for every VM state that the VM can actually hold
(stack length equal to the capacity STACK_SIZE, stack pointer at most the
capacity): push_stack fails with the stack overflow error exactly when the
stack pointer equals STACK_SIZE and otherwise stores the value at the
stack pointer and increments it; stack_top and pop_stack fail with the
empty stack error exactly when the stack pointer is 0; and a successful
pop_stack returns the value below the stack pointer while overwriting that
vacated slot with Null and decrementing the stack pointer. -/
theorem c5_stack_discipline (vm : VM) (v : Object)
    (hlen : vm.stack.length = STACK_SIZE) (hsp : vm.sp ≤ STACK_SIZE) :
    (VM.push_stack vm v = .error (.rt "push_stack: stack overflow") ↔ vm.sp = STACK_SIZE)
  ∧ (vm.sp < STACK_SIZE →
      VM.push_stack vm v = .ok { vm with stack := vm.stack.set vm.sp v, sp := vm.sp + 1 })
  ∧ (VM.stack_top vm = .error (.rt "stack_top: Cannot read empty stack!") ↔ vm.sp = 0)
  ∧ (VM.pop_stack vm = .error (.rt "stack_top: Cannot read empty stack!") ↔ vm.sp = 0)
  ∧ (0 < vm.sp →
      VM.stack_top vm = .ok (vm.stack.getD (vm.sp - 1) Object.Null)
      ∧ VM.pop_stack vm = .ok (vm.stack.getD (vm.sp - 1) Object.Null,
          { vm with sp := vm.sp - 1, stack := vm.stack.set (vm.sp - 1) Object.Null })) := by
  have hl10 : vm.stack.length = 10 := hlen
  have hs10 : vm.sp ≤ 10 := hsp
  refine ⟨?_, ?_, ?_, ?_, ?_⟩
  · by_cases h : vm.sp = STACK_SIZE
    · simp [VM.push_stack, h]
    · have h10 : vm.sp ≠ 10 := h
      have hlt : vm.sp < vm.stack.length := by omega
      simp [VM.push_stack, h, hlt]
  · intro h
    have h10 : vm.sp ≠ 10 := by
      have : vm.sp < 10 := h
      omega
    have hlt : vm.sp < vm.stack.length := by omega
    simp [VM.push_stack, h10, hlt]
    intro hc
    exact absurd hc h10
  · by_cases h : vm.sp = 0
    · simp [VM.stack_top, h]
    · have hlt : vm.sp - 1 < vm.stack.length := by omega
      simp [VM.stack_top, h, hlt]
  · by_cases h : vm.sp = 0
    · simp [VM.pop_stack, VM.stack_top, h, except_bind_error]
    · have hlt : vm.sp - 1 < vm.stack.length := by omega
      simp [VM.pop_stack, VM.stack_top, h, hlt, except_bind_ok]
  · intro h
    have h0 : vm.sp ≠ 0 := by omega
    have hlt : vm.sp - 1 < vm.stack.length := by omega
    constructor
    · simp [VM.stack_top, h0, hlt]
    · simp [VM.pop_stack, VM.stack_top, h0, hlt, except_bind_ok]

/-- C5 witness: the stack discipline at a concrete state holding Integer 7
with stack pointer 1: pop returns Integer 7, nulls the slot and moves the
stack pointer to 0. -/
theorem c5_stack_discipline_witness :
    VM.stack_top vm_stack_witness = .ok (Object.Integer 7)
  ∧ VM.pop_stack vm_stack_witness = .ok (Object.Integer 7,
      { vm_stack_witness with
          sp := 0,
          stack := vm_stack_witness.stack.set 0 Object.Null }) := by
  have h := (c5_stack_discipline vm_stack_witness (Object.Boolean true) rfl
    (by decide)).2.2.2.2 (by decide)
  exact h

/-- C6 counterexample: running Constant then SetGlobal with slot operand 10
(the globals capacity) does not produce a typed runtime error; the
unchecked globals Vec index panics, aborting the run. -/
theorem c6_counterexample :
    (run_result (set_global_bc 0 10)).is_rt_err = false
  ∧ (run_result (set_global_bc 0 10)).is_panicked = true :=
  ⟨rfl, rfl⟩

/-- C6 (amended): executing a SetGlobal instruction whose big endian slot
operand bytes hi and lo (u8 values) decode to a slot at or beyond the
globals capacity STACK_SIZE makes the run abort with the index out of
bounds panic of the unchecked globals write, not return a typed runtime
error. -/
theorem c6_set_global_oob_amended (hi lo : Nat) (hhi : hi < 256) (hlo : lo < 256)
    (h : STACK_SIZE ≤ combine_bytes hi lo) :
    run_result (set_global_bc hi lo) = RunResult.panicked "index out of bounds" := by
  have h10 : (10 : Nat) ≤ combine_bytes hi lo := h
  have hlt : ¬ (combine_bytes hi lo < 10) := Nat.not_lt.mpr h10
  have h1 : run_result (set_global_bc hi lo) = VM.run 99
      { bytecode := set_global_bc hi lo,
        stack := Object.Integer 1 :: List.replicate 9 Object.Null,
        sp := 1, ip := 3, globals := List.replicate 10 Object.Null } := rfl
  rw [h1]
  have h2 : VM.run 99
      { bytecode := set_global_bc hi lo,
        stack := Object.Integer 1 :: List.replicate 9 Object.Null,
        sp := 1, ip := 3, globals := List.replicate 10 Object.Null } =
      (match to_step (if combine_bytes hi lo < 10 then
          Except.ok
            { bytecode := set_global_bc hi lo,
              stack := Object.Null :: List.replicate 9 Object.Null,
              sp := 0, ip := 6,
              globals := (List.replicate 10 Object.Null).set (combine_bytes hi lo) (Object.Integer 1) }
        else Except.error (VmErr.panicked "index out of bounds")) with
      | Step.cont vm => VM.run 98 vm
      | Step.halt vm => RunResult.ok vm
      | Step.fail (VmErr.rt e) => RunResult.rt_err e
      | Step.fail (VmErr.panicked e) => RunResult.panicked e) := rfl
  rw [h2, if_neg hlt]
  rfl

/-- C6 witness: the panic at the concrete out of range slot 10. -/
theorem c6_set_global_oob_witness :
    run_result (set_global_bc 0 10) = RunResult.panicked "index out of bounds" :=
  c6_set_global_oob_amended 0 10 (by decide) (by decide) (by decide)

theorem resolve_define_self (st : SymbolTable) (name : String) :
    ((SymbolTable.define st name).2).resolve name = some st.num_defs := by
  simp [SymbolTable.define, SymbolTable.resolve]

theorem resolve_define_other (st : SymbolTable) (name other : String) (h : other ≠ name) :
    ((SymbolTable.define st name).2).resolve other = st.resolve other := by
  simp [SymbolTable.define, SymbolTable.resolve, h]

theorem exec_defines_append (l1 l2 : List String) (st : SymbolTable) :
    exec_defines st (l1 ++ l2) = exec_defines (exec_defines st l1) l2 := by
  induction l1 generalizing st with
  | nil => rfl
  | cons hd tl ih =>
      simp only [List.cons_append, exec_defines]
      exact ih _

theorem exec_defines_num_defs (l : List String) (st : SymbolTable)
    (h : st.num_defs < 65536) :
    (exec_defines st l).num_defs = (st.num_defs + l.length) % 65536 := by
  induction l generalizing st with
  | nil => simpa [exec_defines] using (Nat.mod_eq_of_lt h).symm
  | cons hd tl ih =>
      simp only [exec_defines]
      rw [ih _ (Nat.mod_lt _ (by norm_num))]
      simp only [SymbolTable.define]
      rw [Nat.mod_add_mod]
      congr 1
      simp [List.length_cons]
      omega

theorem resolve_exec_not_mem (l : List String) (st : SymbolTable) (name : String)
    (h : name ∉ l) : (exec_defines st l).resolve name = st.resolve name := by
  induction l generalizing st with
  | nil => rfl
  | cons hd tl ih =>
      simp only [List.mem_cons, not_or] at h
      simp only [exec_defines]
      rw [ih _ h.2]
      exact resolve_define_other st hd name h.1

theorem resolve_exec_preserved (l : List String) (st : SymbolTable) (name : String)
    (i : Nat) (h : st.resolve name = some i) :
    ∃ j, (exec_defines st l).resolve name = some j := by
  induction l generalizing st i with
  | nil => exact ⟨i, h⟩
  | cons hd tl ih =>
      simp only [exec_defines]
      by_cases hn : name = hd
      · subst hn
        exact ih _ st.num_defs (resolve_define_self st name)
      · refine ih _ i ?_
        rw [resolve_define_other st hd name hn]
        exact h

theorem define_results_eq (l : List String) (st : SymbolTable)
    (h : st.num_defs < 65536) :
    define_results st l = (List.range l.length).map (fun k => (st.num_defs + k) % 65536) := by
  induction l generalizing st with
  | nil => simp [define_results]
  | cons hd tl ih =>
      simp only [define_results]
      rw [ih _ (Nat.mod_lt _ (by norm_num))]
      simp only [SymbolTable.define, List.length_cons]
      rw [List.range_succ_eq_map, List.map_cons, List.map_map]
      congr 1
      · simpa using (Nat.mod_eq_of_lt h).symm
      · refine congrArg (fun g => List.map g (List.range tl.length)) ?_
        funext k
        simp only [Function.comp_apply]
        rw [Nat.mod_add_mod]
        congr 1
        omega

/-- C8 (amended): across any sequence of define calls started on a fresh
SymbolTable, the n-th call (counting from 0 over all names) always
succeeds and returns n modulo 65536 (the counter is a u16 and wraps);
resolve returns the slot recorded by the most recent define of the name,
or nothing if the name was never defined; and no operation ever removes an
entry (a name that resolves keeps resolving after any further defines). -/
theorem c8_symbol_table_amended :
    (∀ (l : List String) (n : Nat), n < l.length →
        (define_results SymbolTable.new l)[n]? = some (n % 65536))
  ∧ (∀ (l1 l2 : List String) (name : String), name ∉ l2 →
        (exec_defines SymbolTable.new (l1 ++ name :: l2)).resolve name =
          some (l1.length % 65536))
  ∧ (∀ (l : List String) (name : String), name ∉ l →
        (exec_defines SymbolTable.new l).resolve name = none)
  ∧ (∀ (l l2 : List String) (name : String) (i : Nat),
        (exec_defines SymbolTable.new l).resolve name = some i →
        ∃ j, (exec_defines SymbolTable.new (l ++ l2)).resolve name = some j) := by
  refine ⟨?_, ?_, ?_, ?_⟩
  · intro l n hn
    rw [define_results_eq l SymbolTable.new (by decide)]
    simp [List.getElem?_map, List.getElem?_range, hn, SymbolTable.new]
  · intro l1 l2 name h2
    rw [exec_defines_append]
    simp only [exec_defines]
    rw [resolve_exec_not_mem l2 _ name h2, resolve_define_self]
    rw [exec_defines_num_defs l1 SymbolTable.new (by decide)]
    simp [SymbolTable.new]
  · intro l name h
    rw [resolve_exec_not_mem l _ name h]
    rfl
  · intro l l2 name i h
    rw [exec_defines_append]
    exact resolve_exec_preserved l2 _ name i h

/-- C8 witness: the amended symbol table contract at concrete inputs: the
call at index 1 returns 1; after defining x, x again and y, the most
recent definition of x (index 1) wins; an undefined name resolves to
nothing; a defined name still resolves after further defines. -/
theorem c8_symbol_table_witness :
    (define_results SymbolTable.new ["x", "y"])[1]? = some (1 % 65536)
  ∧ (exec_defines SymbolTable.new (["x"] ++ "x" :: ["y"])).resolve "x" =
      some ((["x"] : List String).length % 65536)
  ∧ (exec_defines SymbolTable.new ["x"]).resolve "y" = none
  ∧ ∃ j, (exec_defines SymbolTable.new (["x"] ++ ["y", "x"])).resolve "x" = some j := by
  refine ⟨c8_symbol_table_amended.1 ["x", "y"] 1 (by simp),
          c8_symbol_table_amended.2.1 ["x"] ["y"] "x" (by simp),
          c8_symbol_table_amended.2.2.1 ["x"] "y" (by simp),
          c8_symbol_table_amended.2.2.2 ["x"] ["y", "x"] "x" 0 rfl⟩

/-- C8 counterexample: the define counter is a u16, so in the sequence of
65537 defines of the same name the call at index 65536 returns slot 0, not
65536 as the claim states. -/
theorem c8_counterexample :
    (define_results SymbolTable.new (List.replicate 65537 "x"))[65536]? = some 0
  ∧ (0 : Nat) ≠ 65536 := by
  constructor
  · rw [define_results_eq _ SymbolTable.new (by decide)]
    rw [List.length_replicate, List.getElem?_map,
       List.getElem?_range (by norm_num)]
    simp [SymbolTable.new]
  · decide
